import Mathlib

set_option maxRecDepth 4000

/-
Shallow embedding of the FOZI OTP bot core (src/FOZI.py): the OTP
extraction patterns, phone and service normalisation, Telegram message
formatting, the duplicate-filter cache with lazy expiry, the IVASMS
scraper session state machine, and one cycle of the monitor loop.
Machine time is modelled as a natural number of minutes; regex character
classes are modelled over the ASCII fragment the patterns use.
-/

/-- Python regex digit class as used by the patterns, on ASCII input. -/
def isDigitCh (c : Char) : Bool := c.isDigit

/-- Python regex word character class (letters, digits, underscore), used by the
word-boundary anchors. -/
def isWordCh (c : Char) : Bool := c.isAlphanum || c = '_'

/-- Python whitespace set matched by default string strip and the regex
whitespace class, ASCII fragment. -/
def isPySpace (c : Char) : Bool :=
  c = ' ' || c = '\t' || c = '\n' || c = '\r' || c = '\x0b' || c = '\x0c'

/-- Character class of the regex fragment matching a colon or whitespace, as in
the labelled OTP patterns of the source. -/
def isSepCh (c : Char) : Bool := c = ':' || isPySpace c

/-- Character at position j is a digit (false past the end). -/
def digitAt (s : List Char) (j : Nat) : Bool := (s[j]?).any isDigitCh

/-- Character at position j is a word character (false past the end). -/
def wordAt (s : List Char) (j : Nat) : Bool := (s[j]?).any isWordCh

/-- Pattern of k digits between word boundaries matches starting at i. -/
def bareMatchAt (k : Nat) (s : List Char) (i : Nat) : Bool :=
  ((List.range k).all fun d => digitAt s (i + d)) &&
  (decide (i = 0) || !wordAt s (i - 1)) &&
  !wordAt s (i + k)

/-- Leftmost match of the bounded k-digit-run pattern, returning the captured
digits, as performed by a regex search of the bare-run patterns. -/
def searchBare (k : Nat) (s : List Char) : Option (List Char) :=
  (((List.range (s.length + 1)).find? fun i => bareMatchAt k s i).map
    fun i => (s.drop i).take k)

/-- The keyword kw (given lowercase) occurs case-insensitively at position i. -/
def kwMatchAt (kw s : List Char) (i : Nat) : Bool :=
  decide ((((s.drop i).take kw.length).map Char.toLower) = kw)

/-- Digits captured by a labelled pattern anchored at i: skip the keyword, then
colon/whitespace separators, then take the maximal digit run. -/
def labelDigitsAt (kw s : List Char) (i : Nat) : List Char :=
  ((s.drop (i + kw.length)).dropWhile isSepCh).takeWhile isDigitCh

/-- The labelled pattern (keyword, separators, at least one digit) matches
starting at position i. -/
def labelMatchAt (kw s : List Char) (i : Nat) : Bool :=
  kwMatchAt kw s i && !(labelDigitsAt kw s i).isEmpty

/-- Leftmost match of a labelled pattern, returning the captured digit run. -/
def searchLabel (kw s : List Char) : Option (List Char) :=
  (((List.range (s.length + 1)).find? fun i => labelMatchAt kw s i).map
    fun i => labelDigitsAt kw s i)

/-- extract_otp_from_text from the source: empty text yields none; otherwise
the patterns are tried in source order (bare 6-, 5-, 4-digit runs, then the
labelled code/verification/otp/pin patterns) and the first match wins. -/
def extract_otp_from_text (text : String) : Option String :=
  if text = "" then none
  else
    let s := text.data
    match searchBare 6 s with
    | some r => some (String.mk r)
    | none =>
    match searchBare 5 s with
    | some r => some (String.mk r)
    | none =>
    match searchBare 4 s with
    | some r => some (String.mk r)
    | none =>
    match searchLabel "code".data s with
    | some r => some (String.mk r)
    | none =>
    match searchLabel "verification".data s with
    | some r => some (String.mk r)
    | none =>
    match searchLabel "otp".data s with
    | some r => some (String.mk r)
    | none =>
    match searchLabel "pin".data s with
    | some r => some (String.mk r)
    | none => none

/-- clean_phone_number from the source: empty input yields the sentinel, all
other input is filtered to digits and plus signs; a plus is prefixed when the
result does not already start with one and either starts with the Bangladesh
indicator 88 or has at least ten characters; if filtering leaves nothing the
original input is returned. -/
def clean_phone_number (phone : String) : String :=
  if phone = "" then "N/A"
  else
    let cleaned := phone.data.filter fun c => isDigitCh c || c = '+'
    let cleaned2 :=
      if cleaned.head? = some '+' then cleaned
      else if cleaned.isEmpty then cleaned
      else if cleaned.take 2 = ['8', '8'] then '+' :: cleaned
      else if 10 ≤ cleaned.length then '+' :: cleaned
      else cleaned
    if cleaned2.isEmpty then phone else String.mk cleaned2

/-- Python default strip on both ends, ASCII whitespace fragment. -/
def pyStrip (s : List Char) : List Char :=
  ((s.dropWhile isPySpace).reverse.dropWhile isPySpace).reverse

/-- String wrapper for pyStrip. -/
def pyStripStr (s : String) : String := String.mk (pyStrip s.data)

/-- Worker for Python title-casing: uppercase a letter after a non-letter,
lowercase a letter after a letter. -/
def pyTitleGo : Bool → List Char → List Char
  | _, [] => []
  | prev, c :: rest =>
    (if c.isAlpha then (if prev then c.toLower else c.toUpper) else c) ::
      pyTitleGo c.isAlpha rest

/-- Python str.title on the ASCII fragment. -/
def pyTitle (s : List Char) : List Char := pyTitleGo false s

/-- Contiguous-substring test used to model the Python `in` operator. -/
def containsSub (needle hay : List Char) : Bool :=
  (List.range (hay.length + 1)).any fun i =>
    decide ((hay.drop i).take needle.length = needle)

/-- Service synonym table from the source, in its insertion order. -/
def serviceMappings : List (String × String) :=
  [("fb", "Facebook"), ("google", "Google"), ("whatsapp", "WhatsApp"),
   ("telegram", "Telegram"), ("instagram", "Instagram"), ("twitter", "Twitter"),
   ("linkedin", "LinkedIn"), ("tiktok", "TikTok"), ("snapchat", "Snapchat"),
   ("discord", "Discord")]

/-- clean_service_name from the source: empty input yields Unknown; otherwise
strip and title-case, then the first synonym-table key occurring in the
lowercased result wins; no match keeps the title-cased input. -/
def clean_service_name (service : String) : String :=
  if service = "" then "Unknown"
  else
    let cleaned := pyTitle (pyStrip service.data)
    let sl := cleaned.map Char.toLower
    match serviceMappings.find? fun kv => containsSub kv.1.data sl with
    | some kv => kv.2
    | none => String.mk cleaned

/-- One observed message record, as built by the extractor. -/
structure OtpData where
  otp : String
  phone : String
  service : String
  timestamp : String
  raw_message : String
deriving DecidableEq

/-- Emoji sequence opening both message templates, byte-faithful to the source. -/
def icLock : String := "üîê"

/-- Emoji sequence before the OTP line of the single template. -/
def icNum : String := "üî¢"

/-- Emoji sequence before the number line of the single template. -/
def icPhone : String := "üì±"

/-- Emoji sequence before the service line of the single template. -/
def icGlobe : String := "üåê"

/-- Emoji sequence before the time line of the single template. -/
def icClock : String := "‚è∞"

/-- format_otp_message from the source: the single-record Telegram template. -/
def format_otp_message (d : OtpData) : String :=
  icLock ++ " <b>New OTP Received</b>\n\n" ++
  icNum ++ " OTP: <code>" ++ d.otp ++ "</code>\n" ++
  icPhone ++ " Number: <code>" ++ d.phone ++ "</code>\n" ++
  icGlobe ++ " Service: <b>" ++ d.service ++ "</b>\n" ++
  icClock ++ " Time: " ++ d.timestamp ++
  "\n\n<i>Tap the OTP to copy it!</i>"

/-- Fixed message returned for an empty record list. -/
def noOtpsMessage : String := "No new OTPs found."

/-- Header of the multi-record template, parameterised by the record count. -/
def multiHeader (n : Nat) : String :=
  icLock ++ " <b>" ++ toString n ++ " New OTPs Received</b>\n\n"

/-- One numbered line of the multi-record template. -/
def otpLine (i : Nat) (d : OtpData) : String :=
  "<b>" ++ toString i ++ ".</b> <code>" ++ d.otp ++ "</code> | " ++
  d.service ++ " | <code>" ++ d.phone ++ "</code>"

/-- Footer of the multi-record template. -/
def multiFooter : String := "\n\n<i>Tap any OTP to copy it!</i>"

/-- Numbered lines of the multi-record template, enumerated from 1 as in the
source loop. -/
def numberedLines (l : List OtpData) : List String :=
  (List.enumFrom 1 l).map fun p => otpLine p.1 p.2

/-- format_multiple_otps from the source: empty list yields the fixed message,
a singleton delegates to the single template, anything longer yields header,
newline-joined numbered lines, and footer. -/
def format_multiple_otps : List OtpData → String
  | [] => noOtpsMessage
  | [d] => format_otp_message d
  | l => multiHeader l.length ++ String.intercalate "\n" (numberedLines l) ++ multiFooter

/-- One cache entry: capture timestamp (none models a missing or unparsable
ISO timestamp field) plus the stored record fields. -/
structure CEntry where
  timestamp : Option Nat
  otp : String
  phone : String
  service : String
deriving DecidableEq

/-- The duplicate filter: configuration plus the in-memory cache map, modelled
as an association list in insertion order. -/
structure OTPFilter where
  cache_file : String
  expire_minutes : Nat
  cache : List (String × CEntry)
deriving DecidableEq

/-- A freshly constructed filter with the source defaults and no cache file on
disk. -/
def defaultOTPFilter : OTPFilter := OTPFilter.mk "otp_cache.json" 30 []

/-- generate_key from the source: the composite fingerprint. -/
def generate_key (d : OtpData) : String :=
  d.otp ++ "_" ++ d.phone ++ "_" ++ d.service

/-- An entry is expired at time now: its timestamp is missing or unparsable, or
older than the expiry window (strict comparison, as in the source). -/
def entryExpired (w now : Nat) (e : CEntry) : Bool :=
  match e.timestamp with
  | none => true
  | some t => decide (w < now - t)

/-- cleanup_expired from the source: drop every expired entry. -/
def cleanup_expired (now : Nat) (f : OTPFilter) : OTPFilter :=
  OTPFilter.mk f.cache_file f.expire_minutes
    (f.cache.filter fun kv => !entryExpired f.expire_minutes now kv.2)

/-- Key membership in the cache map. -/
def hasKey (c : List (String × CEntry)) (k : String) : Bool :=
  c.any fun kv => kv.1 = k

/-- is_duplicate from the source: clean up expired entries first, then test
fingerprint membership; returns the mutated filter alongside the answer. -/
def is_duplicate (now : Nat) (f : OTPFilter) (d : OtpData) : Bool × OTPFilter :=
  let f1 := cleanup_expired now f
  (hasKey f1.cache (generate_key d), f1)

/-- Dictionary assignment on the association list: overwrite in place when the
key is present, append otherwise. -/
def setEntry (c : List (String × CEntry)) (k : String) (e : CEntry) :
    List (String × CEntry) :=
  if hasKey c k then c.map fun kv => if kv.1 = k then (k, e) else kv
  else c ++ [(k, e)]

/-- In-memory part of add_otp from the source: store the fingerprint with a
fresh timestamp and the record fields. -/
def add_otp (now : Nat) (f : OTPFilter) (d : OtpData) : OTPFilter :=
  OTPFilter.mk f.cache_file f.expire_minutes
    (setEntry f.cache (generate_key d)
      (CEntry.mk (some now) d.otp d.phone d.service))

/-- Raw write of the cache file; fails when the environment makes it fail. -/
def writeCacheFile (writeOk : Bool) : Except String Unit :=
  if writeOk then Except.ok () else Except.error "Error saving cache"

/-- save_cache from the source: the write is wrapped in try/except, and a
failure is logged and swallowed. -/
def save_cache (writeOk : Bool) : Except String Unit :=
  match writeCacheFile writeOk with
  | Except.ok u => Except.ok u
  | Except.error _ => Except.ok ()

/-- add_otp including its persistence attempt: the cache insert happens first
and the save outcome is whatever save_cache reports. -/
def add_otp_io (now : Nat) (f : OTPFilter) (d : OtpData) (writeOk : Bool) :
    Except String OTPFilter :=
  let f1 := add_otp now f d
  match save_cache writeOk with
  | Except.ok _ => Except.ok f1
  | Except.error e => Except.error e

/-- filter_new_otps from the source: for each record in input order, keep it
and admit it iff is_duplicate says it is new at that moment. -/
def filter_new_otps (now : Nat) : OTPFilter → List OtpData → List OtpData × OTPFilter
  | f, [] => ([], f)
  | f, d :: rest =>
    let p := is_duplicate now f d
    if p.1 then filter_new_otps now p.2 rest
    else
      let f2 := add_otp now p.2 d
      let q := filter_new_otps now f2 rest
      (d :: q.1, q.2)

/-- Statistics snapshot returned by get_cache_stats. -/
structure CacheStats where
  total_cached : Nat
  cache_file : String
  expire_minutes : Nat
deriving DecidableEq

/-- get_cache_stats from the source: clean up expired entries first, then
report the cache size and configuration. -/
def get_cache_stats (now : Nat) (f : OTPFilter) : CacheStats × OTPFilter :=
  let f1 := cleanup_expired now f
  (CacheStats.mk f1.cache.length f1.cache_file f1.expire_minutes, f1)

/-- clear_cache from the source. -/
def clear_cache (f : OTPFilter) : String × OTPFilter :=
  ("Cache cleared successfully", OTPFilter.mk f.cache_file f.expire_minutes [])

/-- A record built from one table row: at least three cells, and the stripped
message body must yield an OTP, else the row is dropped. -/
def mkOtpRecord (now_str : String) (cells : List String) : Option OtpData :=
  if cells.length < 3 then none
  else
    let phone := clean_phone_number (cells.getD 0 "")
    let service := clean_service_name (cells.getD 1 "")
    let raw_text := pyStripStr (cells.getD 2 "")
    match extract_otp_from_text raw_text with
    | none => none
    | some otp =>
      some (OtpData.mk otp (if phone = "" then "N/A" else phone)
        (if service = "" then "Unknown" else service) now_str raw_text)

/-- extract_messages from the scraper: skip the header row, then build a
record from each remaining row, silently dropping malformed or OTP-less rows. -/
def extract_messages (now_str : String) (rows : List (List String)) : List OtpData :=
  (rows.drop 1).filterMap (mkOtpRecord now_str)

/-- Session state of the scraper: the single is_logged_in flag. -/
structure ScraperState where
  is_logged_in : Bool
deriving DecidableEq

/-- An HTTP response as status and body text. -/
structure HttpTextResp where
  status : Nat
  body : String
deriving DecidableEq

/-- Network responses seen during the login sequence; raises models a request
exception, which login catches. -/
structure LoginEnv where
  pageResp : HttpTextResp
  postResp : HttpTextResp
  raises : Bool
deriving DecidableEq

/-- Lowercased character data of a string. -/
def lowerData (s : String) : List Char := s.data.map Char.toLower

/-- login from the source: fetch the login page, post credentials, succeed iff
the post returns 200 with a logout control in the body; only success touches
the session flag. -/
def scraper_login (env : LoginEnv) (st : ScraperState) : Bool × ScraperState :=
  if env.raises then (false, st)
  else if env.pageResp.status ≠ 200 then (false, st)
  else if env.postResp.status = 200 &&
      containsSub "logout".data (lowerData env.postResp.body) then
    (true, ScraperState.mk true)
  else (false, st)

/-- The SMS portal page response: status plus the parsed table rows of its
body. -/
structure SmsPageResp where
  status : Nat
  rows : List (List String)
deriving DecidableEq

/-- Network environment of one fetch_messages call. -/
structure FetchEnv where
  loginEnv : LoginEnv
  smsResp : SmsPageResp
  raises : Bool
deriving DecidableEq

/-- Body of fetch_messages once a session exists: a request exception or a
non-200 page yields no records; a 200 page is parsed, with the session flag
untouched in every branch. -/
def fetch_core (now_str : String) (env : FetchEnv) (st : ScraperState) :
    List OtpData × ScraperState :=
  if env.raises then ([], st)
  else if env.smsResp.status ≠ 200 then ([], st)
  else (extract_messages now_str env.smsResp.rows, st)

/-- fetch_messages from the source: log in first when not logged in, then
fetch and parse the portal page. -/
def fetch_messages (now_str : String) (env : FetchEnv) (st : ScraperState) :
    List OtpData × ScraperState :=
  if st.is_logged_in then fetch_core now_str env st
  else
    let p := scraper_login env.loginEnv st
    if p.1 then fetch_core now_str env p.2 else ([], p.2)

/-- Observable outcome of one monitor-loop cycle. -/
structure CycleResult where
  dispatched : Bool
  stats_updated : Bool
  wait_seconds : Nat
deriving DecidableEq

/-- One iteration of the monitor loop body on the non-exception path: fetch,
filter when the fetch produced records, dispatch when novel records remain,
always update statistics, and wait the base 30 seconds. -/
def monitor_cycle (now : Nat) (now_str : String) (env : FetchEnv)
    (st : ScraperState) (filt : OTPFilter) :
    CycleResult × ScraperState × OTPFilter :=
  let fm := fetch_messages now_str env st
  if fm.1.isEmpty then (CycleResult.mk false true 30, fm.2, filt)
  else
    let fn := filter_new_otps now filt fm.1
    (CycleResult.mk (!fn.1.isEmpty) true 30, fm.2, fn.2)

/-- Amended phone normalisation rule, following the corrected claim text: keep
digits and every plus sign; when the result is nonempty without a leading
plus, prefix one iff it starts with 88 or has at least ten characters; empty
input yields the sentinel N/A; input whose cleaning leaves nothing is returned
unchanged. -/
def phoneRuleAmended (phone : String) : String :=
  if phone = "" then "N/A"
  else
    let kept := phone.data.filter fun c => isDigitCh c || c = '+'
    if kept.isEmpty then phone
    else if kept.head? = some '+' then String.mk kept
    else if kept.take 2 = ['8', '8'] || 10 ≤ kept.length then String.mk ('+' :: kept)
    else String.mk kept

/-- The digits of s are exactly the positions of one contiguous run starting
at i of length n. -/
def onlyRun (s : List Char) (i n : Nat) : Prop :=
  ∀ j, digitAt s j = true ↔ (i ≤ j ∧ j < i + n)

/-- None of the four label keywords of the extractor occurs case-insensitively
in s. -/
def noKw (s : List Char) : Prop :=
  containsSub "code".data (s.map Char.toLower) = false ∧
  containsSub "verification".data (s.map Char.toLower) = false ∧
  containsSub "otp".data (s.map Char.toLower) = false ∧
  containsSub "pin".data (s.map Char.toLower) = false

/-- Claim C1 counterexample: on the text with both a labelled 4-digit code and
a bare 6-digit run, the extractor returns the bare run, not the labelled code
the claim promises. -/
theorem C1_counterexample :
    extract_otp_from_text "otp: 4321 and also 987654" = some "987654" ∧
    extract_otp_from_text "otp: 4321 and also 987654" ≠ some "4321" := by
  exact ⟨by decide, by decide⟩

/-- Claim C1 amended: OTP recovery is pattern-based and ordered with the bare
digit runs first: whenever the bounded 6-digit-run pattern matches a nonempty
text, its leftmost capture is the extractor result, regardless of any labelled
pattern; in particular the example text yields 987654, not 4321. -/
theorem C1_theorem :
    (∀ (s : String) (r : List Char), s ≠ "" → searchBare 6 s.data = some r →
      extract_otp_from_text s = some (String.mk r)) ∧
    extract_otp_from_text "otp: 4321 and also 987654" = some "987654" := by
  refine ⟨?_, by decide⟩
  intro s r hs h
  unfold extract_otp_from_text
  rw [if_neg hs]
  simp only [h]

/-- Witness for C1: the amended ordering theorem applied to the example text. -/
theorem C1_witness :
    extract_otp_from_text "otp: 4321 and also 987654" =
      some (String.mk "987654".data) :=
  C1_theorem.1 "otp: 4321 and also 987654" "987654".data (by decide) (by decide)

/-- Claim C5 counterexample: the empty phone maps to the sentinel N/A, not to
the sentinel named by the claim, and the literal example input keeps its seven
digits with no plus prefixed at all. -/
theorem C5_counterexample :
    clean_phone_number "" = "N/A" ∧
    clean_phone_number "" ≠ "unknown" ∧
    clean_phone_number "0088017xxxxxxx" = "0088017" := by
  exact ⟨by decide, by decide, by decide⟩

/-- Claim C5 amended: normalisation keeps digits and every plus sign (not just
a leading one); a nonempty result without a leading plus gains one iff it
starts with 88 or has at least ten characters; the empty input maps to N/A,
and input whose cleaning leaves nothing is returned unchanged; a ten-or-more
digit number gains a plus while the literal example stays 0088017. -/
theorem C5_theorem :
    (∀ p, clean_phone_number p = phoneRuleAmended p) ∧
    clean_phone_number "" = "N/A" ∧
    clean_phone_number "0088017xxxxxxx" = "0088017" ∧
    clean_phone_number "17185551234" = "+17185551234" := by
  refine ⟨?_, by decide, by decide, by decide⟩
  intro p
  unfold clean_phone_number phoneRuleAmended
  by_cases hp : p = ""
  · rw [if_pos hp, if_pos hp]
  · rw [if_neg hp, if_neg hp]
    dsimp only
    by_cases h0 : (p.data.filter fun c => isDigitCh c || c = '+') = []
    · simp [h0]
    · by_cases hfind : List.find? (fun c => isDigitCh c || c = '+') p.data = some '+'
      · simp [h0, hfind]
      · by_cases h88 : (p.data.filter fun c => isDigitCh c || c = '+').take 2 = ['8', '8']
        · simp [h0, hfind, h88]
        · by_cases hlen : 10 ≤ (p.data.filter fun c => isDigitCh c || c = '+').length
          · simp [h0, hfind, h88, hlen]
          · simp [h0, hfind, h88, hlen]

/-- Claim C2 counterexample: a fetch performed while logged in whose 200 body
is the login page (no SMS table, an e-mail and password prompt) leaves the
session flag set: the client does not reset to logged out. -/
theorem C2_counterexample :
    (fetch_messages "12:00:00"
      (FetchEnv.mk
        (LoginEnv.mk (HttpTextResp.mk 200 "") (HttpTextResp.mk 200 "") false)
        (SmsPageResp.mk 200
          [["Login - IVASMS"], ["Please enter your email and password"]])
        false)
      (ScraperState.mk true)).2.is_logged_in = true := by decide

/-- Claim C2 amended: there is no transition out of the logged-in state at
all: fetch_messages never clears the session flag, whatever the response looks
like, and a non-200 response while logged in is reported as an empty batch
with the session state unchanged; only a later successful login can set the
flag. -/
theorem C2_theorem :
    (∀ now_str env st, st.is_logged_in = true →
      (fetch_messages now_str env st).2.is_logged_in = true) ∧
    (∀ now_str env st, st.is_logged_in = true → env.raises = false →
      env.smsResp.status ≠ 200 → fetch_messages now_str env st = ([], st)) := by
  constructor
  · intro now_str env st h
    unfold fetch_messages fetch_core
    rw [if_pos h]
    split
    · exact h
    · split
      · exact h
      · exact h
  · intro now_str env st h hr hs
    unfold fetch_messages fetch_core
    rw [if_pos h, if_neg (by rw [hr]; exact Bool.false_ne_true), if_pos hs]

/-- Witness for C2: the amended theorem applied to a logged-in session seeing
a 500 response. -/
theorem C2_witness :
    (fetch_messages "12:00:00"
      (FetchEnv.mk
        (LoginEnv.mk (HttpTextResp.mk 200 "") (HttpTextResp.mk 200 "") false)
        (SmsPageResp.mk 500 []) false)
      (ScraperState.mk true)).2.is_logged_in = true ∧
    fetch_messages "12:00:00"
      (FetchEnv.mk
        (LoginEnv.mk (HttpTextResp.mk 200 "") (HttpTextResp.mk 200 "") false)
        (SmsPageResp.mk 500 []) false)
      (ScraperState.mk true) = ([], ScraperState.mk true) := by
  constructor
  · exact C2_theorem.1 "12:00:00" _ (ScraperState.mk true) rfl
  · exact C2_theorem.2 "12:00:00" _ (ScraperState.mk true) rfl rfl (by decide)

/-- Claim C6 counterexample: a cycle whose fetch fails (login page
unreachable, so authentication never happens) still updates statistics and
waits the base 30 seconds, not the elongated 60-second backoff the claim
promises. -/
theorem C6_counterexample :
    (monitor_cycle 0 "00:00:00"
      (FetchEnv.mk
        (LoginEnv.mk (HttpTextResp.mk 500 "") (HttpTextResp.mk 500 "") false)
        (SmsPageResp.mk 200 []) false)
      (ScraperState.mk false) defaultOTPFilter).1 =
    CycleResult.mk false true 30 := by decide

/-- Claim C6 amended: fetch failures surface as an empty batch, not as an
exception, so every cycle updates statistics and waits the base 30 seconds; a
cycle whose fetch produced nothing performs no dispatch but is otherwise
indistinguishable from a normal empty cycle; the elongated 60-second wait is
reserved for an exception escaping the loop body, which the fetch path never
raises. -/
theorem C6_theorem :
    (∀ now now_str env st filt,
      (monitor_cycle now now_str env st filt).1.stats_updated = true ∧
      (monitor_cycle now now_str env st filt).1.wait_seconds = 30) ∧
    (∀ now now_str env st filt, (fetch_messages now_str env st).1 = [] →
      (monitor_cycle now now_str env st filt).1 = CycleResult.mk false true 30) := by
  constructor
  · intro now now_str env st filt
    unfold monitor_cycle
    dsimp only
    split
    · exact ⟨rfl, rfl⟩
    · exact ⟨rfl, rfl⟩
  · intro now now_str env st filt h
    unfold monitor_cycle
    dsimp only
    rw [if_pos (by rw [h]; rfl)]

/-- Witness for C6: the amended theorem applied to the unreachable-login
cycle. -/
theorem C6_witness :
    (monitor_cycle 0 "00:00:00"
      (FetchEnv.mk
        (LoginEnv.mk (HttpTextResp.mk 500 "") (HttpTextResp.mk 500 "") false)
        (SmsPageResp.mk 200 []) false)
      (ScraperState.mk false) defaultOTPFilter).1 = CycleResult.mk false true 30 :=
  C6_theorem.2 0 "00:00:00"
    (FetchEnv.mk
      (LoginEnv.mk (HttpTextResp.mk 500 "") (HttpTextResp.mk 500 "") false)
      (SmsPageResp.mk 200 []) false)
    (ScraperState.mk false) defaultOTPFilter (by decide)

/-- String append acts as list append on the character data. -/
theorem str_data_append (a b : String) : (a ++ b).data = a.data ++ b.data := rfl

/-- Claim C8: the formatter returns the fixed message on no records, the
single-record template (naming the record's code, phone, service and capture
time) on one record, and on two or more records one message made of the
shared header, the newline-joined numbered lines, and the shared footer,
where line i is built from record i's code, service and phone. -/
theorem C8_theorem :
    format_multiple_otps [] = noOtpsMessage ∧
    (∀ d, format_multiple_otps [d] = format_otp_message d ∧
      d.otp.data <:+: (format_otp_message d).data ∧
      d.phone.data <:+: (format_otp_message d).data ∧
      d.service.data <:+: (format_otp_message d).data ∧
      d.timestamp.data <:+: (format_otp_message d).data) ∧
    (∀ l, 2 ≤ l.length →
      format_multiple_otps l =
        multiHeader l.length ++ String.intercalate "\n" (numberedLines l) ++
          multiFooter ∧
      (numberedLines l).length = l.length ∧
      ∀ i, (numberedLines l)[i]? = (l[i]?).map fun d => otpLine (i + 1) d) := by
  refine ⟨rfl, ?_, ?_⟩
  · intro d
    refine ⟨rfl, ?_, ?_, ?_, ?_⟩
    · have h : (format_otp_message d).data =
          (icLock ++ " <b>New OTP Received</b>\n\n" ++ icNum ++
            " OTP: <code>").data ++ d.otp.data ++
          ("</code>\n" ++ icPhone ++ " Number: <code>" ++ d.phone ++
            "</code>\n" ++ icGlobe ++ " Service: <b>" ++ d.service ++
            "</b>\n" ++ icClock ++ " Time: " ++ d.timestamp ++
            "\n\n<i>Tap the OTP to copy it!</i>").data := by
        simp only [format_otp_message, str_data_append, List.append_assoc]
      rw [h]
      exact List.infix_append _ _ _
    · have h : (format_otp_message d).data =
          (icLock ++ " <b>New OTP Received</b>\n\n" ++ icNum ++
            " OTP: <code>" ++ d.otp ++ "</code>\n" ++ icPhone ++
            " Number: <code>").data ++ d.phone.data ++
          ("</code>\n" ++ icGlobe ++ " Service: <b>" ++ d.service ++
            "</b>\n" ++ icClock ++ " Time: " ++ d.timestamp ++
            "\n\n<i>Tap the OTP to copy it!</i>").data := by
        simp only [format_otp_message, str_data_append, List.append_assoc]
      rw [h]
      exact List.infix_append _ _ _
    · have h : (format_otp_message d).data =
          (icLock ++ " <b>New OTP Received</b>\n\n" ++ icNum ++
            " OTP: <code>" ++ d.otp ++ "</code>\n" ++ icPhone ++
            " Number: <code>" ++ d.phone ++ "</code>\n" ++ icGlobe ++
            " Service: <b>").data ++ d.service.data ++
          ("</b>\n" ++ icClock ++ " Time: " ++ d.timestamp ++
            "\n\n<i>Tap the OTP to copy it!</i>").data := by
        simp only [format_otp_message, str_data_append, List.append_assoc]
      rw [h]
      exact List.infix_append _ _ _
    · have h : (format_otp_message d).data =
          (icLock ++ " <b>New OTP Received</b>\n\n" ++ icNum ++
            " OTP: <code>" ++ d.otp ++ "</code>\n" ++ icPhone ++
            " Number: <code>" ++ d.phone ++ "</code>\n" ++ icGlobe ++
            " Service: <b>" ++ d.service ++ "</b>\n" ++ icClock ++
            " Time: ").data ++ d.timestamp.data ++
          ("\n\n<i>Tap the OTP to copy it!</i>").data := by
        simp only [format_otp_message, str_data_append, List.append_assoc]
      rw [h]
      exact List.infix_append _ _ _
  · intro l hl
    have hlen : ∀ m : List OtpData, (numberedLines m).length = m.length := by
      intro m
      simp [numberedLines, List.enumFrom_length]
    have hget : ∀ (m : List OtpData) (i : Nat),
        (numberedLines m)[i]? = (m[i]?).map fun d => otpLine (i + 1) d := by
      intro m i
      simp only [numberedLines, List.getElem?_map, List.getElem?_enumFrom,
        Option.map_map, Nat.add_comm]
      rfl
    match l, hl with
    | a :: b :: t, _ =>
      exact ⟨rfl, hlen (a :: b :: t), hget (a :: b :: t)⟩

/-- Witness for C8: the multi-record decomposition applied to a concrete
two-record batch. -/
theorem C8_witness :
    format_multiple_otps
        [OtpData.mk "111111" "+111" "Facebook" "01:00:00" "a",
         OtpData.mk "222222" "+222" "Google" "02:00:00" "b"] =
      multiHeader 2 ++
        String.intercalate "\n"
          (numberedLines
            [OtpData.mk "111111" "+111" "Facebook" "01:00:00" "a",
             OtpData.mk "222222" "+222" "Google" "02:00:00" "b"]) ++
        multiFooter :=
  (C8_theorem.2.2
    [OtpData.mk "111111" "+111" "Facebook" "01:00:00" "a",
     OtpData.mk "222222" "+222" "Google" "02:00:00" "b"] (by decide)).1

/-- The key just written by setEntry is present afterwards. -/
theorem hasKey_setEntry (c : List (String × CEntry)) (k : String) (e : CEntry) :
    hasKey (setEntry c k e) k = true := by
  unfold setEntry
  by_cases h : hasKey c k
  · rw [if_pos h]
    unfold hasKey at h ⊢
    rw [List.any_eq_true] at h ⊢
    obtain ⟨kv, hkv, hk⟩ := h
    refine ⟨(k, e), List.mem_map.mpr ⟨kv, hkv, ?_⟩, by simp⟩
    rw [if_pos (of_decide_eq_true hk)]
  · rw [if_neg h]
    unfold hasKey
    rw [List.any_eq_true]
    exact ⟨(k, e), List.mem_append_right _ (List.mem_singleton.mpr rfl), by simp⟩

/-- The cache of a cleaned filter is the filtered cache. -/
theorem cleanup_expired_cache (now : Nat) (f : OTPFilter) :
    (cleanup_expired now f).cache =
      f.cache.filter fun kv => !entryExpired f.expire_minutes now kv.2 := rfl

/-- Absence of a key is characterised entrywise. -/
theorem hasKey_eq_false_iff (c : List (String × CEntry)) (k : String) :
    hasKey c k = false ↔ ∀ kv ∈ c, kv.1 ≠ k := by
  unfold hasKey
  rw [List.any_eq_false]
  constructor
  · intro h kv hkv
    have := h kv hkv
    simpa using this
  · intro h kv hkv
    simpa using h kv hkv

/-- A pair in the cache witnesses its key. -/
theorem hasKey_of_mem (c : List (String × CEntry)) (k : String) (e : CEntry)
    (h : (k, e) ∈ c) : hasKey c k = true := by
  unfold hasKey
  rw [List.any_eq_true]
  exact ⟨(k, e), h, by simp⟩

/-- setEntry always leaves the written pair in the cache. -/
theorem setEntry_mem_self (c : List (String × CEntry)) (k : String) (e : CEntry) :
    (k, e) ∈ setEntry c k e := by
  unfold setEntry
  by_cases h : hasKey c k
  · rw [if_pos h]
    unfold hasKey at h
    rw [List.any_eq_true] at h
    obtain ⟨kv, hkv, hk⟩ := h
    refine List.mem_map.mpr ⟨kv, hkv, ?_⟩
    rw [if_pos (of_decide_eq_true hk)]
  · rw [if_neg h]
    exact List.mem_append_right _ (List.mem_singleton.mpr rfl)

/-- After setEntry, every pair carrying the written key is the written pair. -/
theorem setEntry_eq_of_mem (c : List (String × CEntry)) (k : String) (e : CEntry)
    (kv : String × CEntry) (h : kv ∈ setEntry c k e) (hk : kv.1 = k) :
    kv = (k, e) := by
  unfold setEntry at h
  by_cases hc : hasKey c k
  · rw [if_pos hc] at h
    obtain ⟨a, _, ha⟩ := List.mem_map.mp h
    by_cases hak : a.1 = k
    · rw [if_pos hak] at ha
      exact ha.symm
    · rw [if_neg hak] at ha
      rw [← ha] at hk
      exact absurd hk hak
  · rw [if_neg hc] at h
    rcases List.mem_append.mp h with h1 | h1
    · have hc' : hasKey c k = false := by simpa using hc
      rw [hasKey_eq_false_iff] at hc'
      exact absurd hk (hc' kv h1)
    · exact List.mem_singleton.mp h1

/-- A fresh fingerprint admitted at t0 is still present after a cleanup at any
t1 within the window. -/
theorem hasKey_cleanup_addotp_true (t0 t1 : Nat) (f : OTPFilter) (d : OtpData)
    (h : t1 - t0 ≤ f.expire_minutes) :
    hasKey (cleanup_expired t1 (add_otp t0 f d)).cache (generate_key d) = true := by
  apply hasKey_of_mem _ _ (CEntry.mk (some t0) d.otp d.phone d.service)
  rw [cleanup_expired_cache]
  apply List.mem_filter.mpr
  refine ⟨setEntry_mem_self _ _ _, ?_⟩
  simp only [entryExpired]
  have : (add_otp t0 f d).expire_minutes = f.expire_minutes := rfl
  rw [this]
  simp
  omega

/-- A fingerprint admitted at t0 is gone after a cleanup at any t1 strictly
past the window. -/
theorem hasKey_cleanup_addotp_false (t0 t1 : Nat) (f : OTPFilter) (d : OtpData)
    (h : f.expire_minutes < t1 - t0) :
    hasKey (cleanup_expired t1 (add_otp t0 f d)).cache (generate_key d) = false := by
  rw [hasKey_eq_false_iff]
  intro kv hkv
  intro hk
  rw [cleanup_expired_cache] at hkv
  obtain ⟨hmem, hpred⟩ := List.mem_filter.mp hkv
  have hkv' : kv = (generate_key d, CEntry.mk (some t0) d.otp d.phone d.service) :=
    setEntry_eq_of_mem _ _ _ _ hmem hk
  rw [hkv'] at hpred
  have : (add_otp t0 f d).expire_minutes = f.expire_minutes := rfl
  rw [this] at hpred
  simp [entryExpired] at hpred
  omega

/-- Claim C7: persistence failures are swallowed: add_otp with a failing cache
write still returns normally with the in-memory insert done, no error
escapes, and the fingerprint is present in the in-memory cache afterwards. -/
theorem C7_theorem :
    ∀ (now : Nat) (f : OTPFilter) (d : OtpData) (writeOk : Bool),
      add_otp_io now f d writeOk = Except.ok (add_otp now f d) ∧
      save_cache writeOk = Except.ok () ∧
      hasKey (add_otp now f d).cache (generate_key d) = true := by
  intro now f d w
  refine ⟨?_, ?_, ?_⟩
  · cases w <;> rfl
  · cases w <;> rfl
  · exact hasKey_setEntry f.cache (generate_key d) _

/-- Unfolding equation of filter_new_otps on the empty batch. -/
theorem filter_new_otps_nil (now : Nat) (f : OTPFilter) :
    filter_new_otps now f [] = ([], f) := rfl

/-- Unfolding equation of filter_new_otps on a nonempty batch. -/
theorem filter_new_otps_cons (now : Nat) (f : OTPFilter) (d : OtpData)
    (rest : List OtpData) :
    filter_new_otps now f (d :: rest) =
      if (is_duplicate now f d).1 then
        filter_new_otps now (is_duplicate now f d).2 rest
      else
        (d :: (filter_new_otps now (add_otp now (is_duplicate now f d).2 d) rest).1,
          (filter_new_otps now (add_otp now (is_duplicate now f d).2 d) rest).2) := rfl

/-- Claim C3: filterNovel deduplicates within a batch and against history:
for a record whose fingerprint is absent from the cache, a batch of two copies
yields only the first copy; a singleton batch yields the record and admits its
fingerprint at that moment; and re-filtering the same record any time within
the expiry window yields nothing. -/
theorem C3_theorem :
    ∀ (f : OTPFilter) (r : OtpData) (t0 : Nat),
      (∀ kv ∈ f.cache, kv.1 ≠ generate_key r) →
      (filter_new_otps t0 f [r, r]).1 = [r] ∧
      (filter_new_otps t0 f [r]).1 = [r] ∧
      hasKey (filter_new_otps t0 f [r]).2.cache (generate_key r) = true ∧
      (∀ t1, t1 ≤ t0 + f.expire_minutes →
        (filter_new_otps t1 (filter_new_otps t0 f [r]).2 [r]).1 = []) := by
  intro f r t0 habs
  have h1 : (is_duplicate t0 f r).1 = false := by
    show hasKey (cleanup_expired t0 f).cache (generate_key r) = false
    rw [hasKey_eq_false_iff]
    intro kv hkv
    rw [cleanup_expired_cache] at hkv
    exact habs kv (List.mem_of_mem_filter hkv)
  have hf1 : (is_duplicate t0 f r).2 = cleanup_expired t0 f := rfl
  have hw1 : (cleanup_expired t0 f).expire_minutes = f.expire_minutes := rfl
  have hw2 : (add_otp t0 (cleanup_expired t0 f) r).expire_minutes =
      f.expire_minutes := rfl
  have hdup : ∀ t1, t1 - t0 ≤ f.expire_minutes →
      (is_duplicate t1 (add_otp t0 (cleanup_expired t0 f) r) r).1 = true := by
    intro t1 ht
    show hasKey
      (cleanup_expired t1 (add_otp t0 (cleanup_expired t0 f) r)).cache
      (generate_key r) = true
    exact hasKey_cleanup_addotp_true t0 t1 (cleanup_expired t0 f) r (by omega)
  have hsingle : filter_new_otps t0 f [r] =
      ([r], add_otp t0 (cleanup_expired t0 f) r) := by
    rw [filter_new_otps_cons, h1]
    simp only [Bool.false_eq_true, if_false, hf1, filter_new_otps_nil]
  refine ⟨?_, ?_, ?_, ?_⟩
  · rw [filter_new_otps_cons, h1]
    simp only [Bool.false_eq_true, if_false, hf1]
    rw [filter_new_otps_cons, hdup t0 (by omega)]
    simp [filter_new_otps_nil]
  · rw [hsingle]
  · rw [hsingle]
    exact hasKey_of_mem _ _ _ (setEntry_mem_self _ _ _)
  · intro t1 ht
    rw [hsingle, filter_new_otps_cons, hdup t1 (by omega)]
    simp [filter_new_otps_nil]

/-- Witness for C3: batch dedup and window-bounded re-poll dedup on a concrete
record against the fresh default filter. -/
theorem C3_witness :
    (filter_new_otps 0 defaultOTPFilter
      [OtpData.mk "123456" "+111" "Google" "00:00:00" "m",
       OtpData.mk "123456" "+111" "Google" "00:00:00" "m"]).1 =
      [OtpData.mk "123456" "+111" "Google" "00:00:00" "m"] ∧
    (filter_new_otps 20
      (filter_new_otps 0 defaultOTPFilter
        [OtpData.mk "123456" "+111" "Google" "00:00:00" "m"]).2
      [OtpData.mk "123456" "+111" "Google" "00:00:00" "m"]).1 = [] := by
  have h := C3_theorem defaultOTPFilter
    (OtpData.mk "123456" "+111" "Google" "00:00:00" "m") 0
    (by intro kv hkv; simp [defaultOTPFilter] at hkv)
  exact ⟨h.1, h.2.2.2 20 (by decide)⟩

/-- Claim C4: lazy window-bounded expiry: a fingerprint admitted at t0 is a
duplicate at every time before t0 plus the window and not a duplicate at any
time strictly after, with the expired entry removed by the cleanup pass of
that very access; the default window is 30 minutes. -/
theorem C4_theorem :
    ∀ (f : OTPFilter) (r : OtpData) (t0 t1 : Nat),
      (t1 < t0 + f.expire_minutes →
        (is_duplicate t1 (add_otp t0 f r) r).1 = true) ∧
      (t0 + f.expire_minutes < t1 →
        (is_duplicate t1 (add_otp t0 f r) r).1 = false ∧
        hasKey (is_duplicate t1 (add_otp t0 f r) r).2.cache
          (generate_key r) = false) ∧
      defaultOTPFilter.expire_minutes = 30 := by
  intro f r t0 t1
  refine ⟨?_, ?_, rfl⟩
  · intro h
    show hasKey (cleanup_expired t1 (add_otp t0 f r)).cache (generate_key r) = true
    exact hasKey_cleanup_addotp_true t0 t1 f r (by omega)
  · intro h
    have hfalse :
        hasKey (cleanup_expired t1 (add_otp t0 f r)).cache (generate_key r) = false :=
      hasKey_cleanup_addotp_false t0 t1 f r (by omega)
    exact ⟨hfalse, hfalse⟩

/-- Witness for C4: duplicate within the window, novel and evicted strictly
after it, on the default filter. -/
theorem C4_witness :
    (is_duplicate 29
      (add_otp 0 defaultOTPFilter (OtpData.mk "123456" "+111" "Google" "t" "m"))
      (OtpData.mk "123456" "+111" "Google" "t" "m")).1 = true ∧
    (is_duplicate 31
      (add_otp 0 defaultOTPFilter (OtpData.mk "123456" "+111" "Google" "t" "m"))
      (OtpData.mk "123456" "+111" "Google" "t" "m")).1 = false := by
  constructor
  · exact (C4_theorem defaultOTPFilter
      (OtpData.mk "123456" "+111" "Google" "t" "m") 0 29).1 (by decide)
  · exact ((C4_theorem defaultOTPFilter
      (OtpData.mk "123456" "+111" "Google" "t" "m") 0 31).2.1 (by decide)).1

/-- Claim C10: malformed cache entries are self-healing: after the cleanup
pass performed by any is_duplicate or get_cache_stats call at time t, every
surviving entry carries a well-formed timestamp no older than the window. -/
theorem C10_theorem :
    ∀ (f : OTPFilter) (t : Nat) (d : OtpData),
      (∀ kv ∈ (is_duplicate t f d).2.cache,
        ∃ ts, kv.2.timestamp = some ts ∧ t - ts ≤ f.expire_minutes) ∧
      (∀ kv ∈ (get_cache_stats t f).2.cache,
        ∃ ts, kv.2.timestamp = some ts ∧ t - ts ≤ f.expire_minutes) := by
  intro f t d
  have key : ∀ kv ∈ (cleanup_expired t f).cache,
      ∃ ts, kv.2.timestamp = some ts ∧ t - ts ≤ f.expire_minutes := by
    intro kv hkv
    rw [cleanup_expired_cache] at hkv
    obtain ⟨hmem, hpred⟩ := List.mem_filter.mp hkv
    cases hts : kv.2.timestamp with
    | none =>
      exfalso
      simp [entryExpired, hts] at hpred
    | some ts =>
      refine ⟨ts, rfl, ?_⟩
      simp [entryExpired, hts] at hpred
      omega
  exact ⟨key, key⟩

/-- Witness for C10: on a cache holding a malformed entry and a fresh one, the
fresh entry surviving an is_duplicate cleanup carries a bounded timestamp. -/
theorem C10_witness :
    ∃ ts, (("good", CEntry.mk (some 5) "4" "5" "6") : String × CEntry).2.timestamp =
        some ts ∧
      10 - ts ≤ (OTPFilter.mk "otp_cache.json" 30
        [("bad", CEntry.mk none "1" "2" "3"),
         ("good", CEntry.mk (some 5) "4" "5" "6")]).expire_minutes :=
  (C10_theorem
    (OTPFilter.mk "otp_cache.json" 30
      [("bad", CEntry.mk none "1" "2" "3"),
       ("good", CEntry.mk (some 5) "4" "5" "6")]) 10
    (OtpData.mk "9" "9" "9" "t" "m")).1
    ("good", CEntry.mk (some 5) "4" "5" "6") (by decide)

/-- A digit position is a word-character position. -/
theorem digitAt_imp_wordAt (s : List Char) (j : Nat) (h : digitAt s j = true) :
    wordAt s j = true := by
  unfold digitAt at h
  unfold wordAt
  cases hj : s[j]? with
  | none =>
    rw [hj] at h
    simp at h
  | some c =>
    rw [hj] at h
    have hd : c.isDigit = true := by simpa [isDigitCh] using h
    show Option.any isWordCh (some c) = true
    simp only [Option.any_some]
    unfold isWordCh Char.isAlphanum
    rw [hd]
    simp

/-- Positions past the end are not digits. -/
theorem digitAt_eq_false_of_le (s : List Char) (j : Nat) (h : s.length ≤ j) :
    digitAt s j = false := by
  unfold digitAt
  rw [List.getElem?_eq_none h]
  rfl

/-- Under a single digit run longer than k, no bounded k-digit-run pattern can
match anywhere: a leftmost window hits a digit on its left or right edge. -/
theorem bareMatchAt_false_of_onlyRun (k : Nat) (s : List Char) (i n : Nat)
    (hk : 1 ≤ k) (hkn : k < n) (hrun : onlyRun s i n) (pos : Nat) :
    bareMatchAt k s pos = false := by
  cases hb : bareMatchAt k s pos with
  | false => rfl
  | true =>
    exfalso
    unfold bareMatchAt at hb
    rw [Bool.and_eq_true, Bool.and_eq_true] at hb
    obtain ⟨⟨hall, hpre⟩, hpost⟩ := hb
    have hdig : ∀ d, d < k → digitAt s (pos + d) = true := fun d hd =>
      List.all_eq_true.mp hall d (List.mem_range.mpr hd)
    have h0 : digitAt s pos = true := by
      have := hdig 0 (by omega)
      simpa using this
    have hpos0 := (hrun pos).mp h0
    by_cases hpi : pos = i
    · subst hpi
      have hnext : digitAt s (pos + k) = true :=
        (hrun (pos + k)).mpr ⟨by omega, by omega⟩
      rw [digitAt_imp_wordAt s (pos + k) hnext] at hpost
      simp at hpost
    · have hprev : digitAt s (pos - 1) = true :=
        (hrun (pos - 1)).mpr ⟨by omega, by omega⟩
      rw [Bool.or_eq_true] at hpre
      rcases hpre with hpre | hpre
      · have : pos = 0 := of_decide_eq_true hpre
        omega
      · rw [digitAt_imp_wordAt s (pos - 1) hprev] at hpre
        simp at hpre

/-- A bare-run search fails when no position matches. -/
theorem searchBare_eq_none (k : Nat) (s : List Char)
    (h : ∀ pos, bareMatchAt k s pos = false) : searchBare k s = none := by
  unfold searchBare
  have hf : (List.range (s.length + 1)).find? (fun i => bareMatchAt k s i) = none :=
    List.find?_eq_none.mpr fun x hx => by simp [h x]
  rw [hf]
  rfl

/-- A labelled pattern cannot match at any position of a text that does not
contain its keyword case-insensitively. -/
theorem labelMatchAt_false_of_noKw (kw s : List Char) (pos : Nat) (hkw : kw ≠ [])
    (h : containsSub kw (s.map Char.toLower) = false) :
    labelMatchAt kw s pos = false := by
  cases hb : labelMatchAt kw s pos with
  | false => rfl
  | true =>
    exfalso
    unfold labelMatchAt at hb
    rw [Bool.and_eq_true] at hb
    obtain ⟨hm, _⟩ := hb
    unfold kwMatchAt at hm
    have hmeq : ((s.drop pos).take kw.length).map Char.toLower = kw :=
      of_decide_eq_true hm
    have hle : pos ≤ s.length := by
      by_contra hgt
      push_neg at hgt
      have hd : s.drop pos = [] := List.drop_eq_nil_of_le (by omega)
      rw [hd] at hmeq
      simp only [List.take_nil, List.map_nil] at hmeq
      exact hkw hmeq.symm
    have hc : containsSub kw (s.map Char.toLower) = true := by
      unfold containsSub
      rw [List.any_eq_true]
      refine ⟨pos, List.mem_range.mpr (by simp; omega), ?_⟩
      apply decide_eq_true
      rw [← List.map_drop, ← List.map_take]
      exact hmeq
    rw [h] at hc
    exact Bool.noConfusion hc

/-- A labelled search fails when no position matches. -/
theorem searchLabel_eq_none (kw s : List Char)
    (h : ∀ pos, labelMatchAt kw s pos = false) : searchLabel kw s = none := by
  unfold searchLabel
  have hf : (List.range (s.length + 1)).find? (fun i => labelMatchAt kw s i) = none :=
    List.find?_eq_none.mpr fun x hx => by simp [h x]
  rw [hf]
  rfl

/-- When every pattern search fails, the extractor yields none. -/
theorem extract_eq_none_of_searches (t : String)
    (h6 : searchBare 6 t.data = none) (h5 : searchBare 5 t.data = none)
    (h4 : searchBare 4 t.data = none)
    (hc : searchLabel "code".data t.data = none)
    (hv : searchLabel "verification".data t.data = none)
    (ho : searchLabel "otp".data t.data = none)
    (hp : searchLabel "pin".data t.data = none) :
    extract_otp_from_text t = none := by
  unfold extract_otp_from_text
  by_cases ht : t = ""
  · rw [if_pos ht]
  · rw [if_neg ht]
    dsimp only
    simp only [h6, h5, h4, hc, hv, ho, hp]

/-- Core of claim C9: a text whose digits form a single bare run of length at
least 7 and which contains none of the label keywords yields no OTP. -/
theorem extract_eq_none_of_onlyRun (s : List Char) (i n : Nat) (h7 : 7 ≤ n)
    (hrun : onlyRun s i n) (hkw : noKw s) :
    extract_otp_from_text (String.mk s) = none := by
  refine extract_eq_none_of_searches _ ?_ ?_ ?_ ?_ ?_ ?_ ?_
  · exact searchBare_eq_none 6 s fun pos =>
      bareMatchAt_false_of_onlyRun 6 s i n (by omega) (by omega) hrun pos
  · exact searchBare_eq_none 5 s fun pos =>
      bareMatchAt_false_of_onlyRun 5 s i n (by omega) (by omega) hrun pos
  · exact searchBare_eq_none 4 s fun pos =>
      bareMatchAt_false_of_onlyRun 4 s i n (by omega) (by omega) hrun pos
  · exact searchLabel_eq_none _ s fun pos =>
      labelMatchAt_false_of_noKw _ s pos (by decide) hkw.1
  · exact searchLabel_eq_none _ s fun pos =>
      labelMatchAt_false_of_noKw _ s pos (by decide) hkw.2.1
  · exact searchLabel_eq_none _ s fun pos =>
      labelMatchAt_false_of_noKw _ s pos (by decide) hkw.2.2.1
  · exact searchLabel_eq_none _ s fun pos =>
      labelMatchAt_false_of_noKw _ s pos (by decide) hkw.2.2.2

/-- Whitespace characters are not digits. -/
theorem isPySpace_not_digit (c : Char) (h : isPySpace c = true) :
    isDigitCh c = false := by
  unfold isPySpace at h
  simp only [Bool.or_eq_true, decide_eq_true_eq] at h
  rcases h with ((((h | h) | h) | h) | h) | h <;> subst h <;> decide

/-- No position of an all-whitespace list is a digit. -/
theorem digitAt_false_of_space (u : List Char)
    (hs : ∀ c ∈ u, isPySpace c = true) (j : Nat) : digitAt u j = false := by
  unfold digitAt
  cases hj : u[j]? with
  | none => rfl
  | some c =>
    have hc : c ∈ u := by
      have hg : u.get? j = some c := by
        rw [List.get?_eq_getElem?]
        exact hj
      exact List.get?_mem hg
    simp only [Option.any_some]
    exact isPySpace_not_digit c (hs c hc)

/-- Position shift of digitAt across a left part. -/
theorem digitAt_append_left (a b : List Char) (j : Nat) (h : j < a.length) :
    digitAt (a ++ b) j = digitAt a j := by
  unfold digitAt
  rw [List.getElem?_append_left h]

/-- Position shift of digitAt past a left part. -/
theorem digitAt_append_right (a b : List Char) (j : Nat) (h : a.length ≤ j) :
    digitAt (a ++ b) j = digitAt b (j - a.length) := by
  unfold digitAt
  rw [List.getElem?_append_right h]

/-- pyStrip decomposes its input into whitespace, the stripped core, and
whitespace. -/
theorem pyStrip_decomp (s : List Char) :
    ∃ pre post, s = pre ++ pyStrip s ++ post ∧
      (∀ c ∈ pre, isPySpace c = true) ∧ (∀ c ∈ post, isPySpace c = true) := by
  refine ⟨s.takeWhile isPySpace,
    ((s.dropWhile isPySpace).reverse.takeWhile isPySpace).reverse, ?_, ?_, ?_⟩
  · have hu : s.dropWhile isPySpace =
        pyStrip s ++ ((s.dropWhile isPySpace).reverse.takeWhile isPySpace).reverse := by
      unfold pyStrip
      rw [← List.reverse_append, List.takeWhile_append_dropWhile,
        List.reverse_reverse]
    calc s = s.takeWhile isPySpace ++ s.dropWhile isPySpace :=
        (List.takeWhile_append_dropWhile isPySpace s).symm
      _ = s.takeWhile isPySpace ++ (pyStrip s ++
          ((s.dropWhile isPySpace).reverse.takeWhile isPySpace).reverse) := by
        rw [← hu]
      _ = s.takeWhile isPySpace ++ pyStrip s ++
          ((s.dropWhile isPySpace).reverse.takeWhile isPySpace).reverse := by
        rw [List.append_assoc]
  · intro c hc
    exact List.mem_takeWhile_imp hc
  · intro c hc
    rw [List.mem_reverse] at hc
    exact List.mem_takeWhile_imp hc

/-- The single-run property restricts to the stripped core of a text whose
margins are whitespace. -/
theorem onlyRun_transfer (pre t post : List Char) (i n : Nat) (h1 : 1 ≤ n)
    (hpre : ∀ c ∈ pre, isPySpace c = true)
    (hpost : ∀ c ∈ post, isPySpace c = true)
    (hrun : onlyRun (pre ++ t ++ post) i n) :
    onlyRun t (i - pre.length) n := by
  have hout : ∀ j, j < pre.length ∨ pre.length + t.length ≤ j →
      digitAt (pre ++ t ++ post) j = false := by
    intro j hj
    rcases hj with hj | hj
    · rw [List.append_assoc, digitAt_append_left pre (t ++ post) j hj]
      exact digitAt_false_of_space pre hpre j
    · rw [digitAt_append_right (pre ++ t) post j (by simp; omega)]
      exact digitAt_false_of_space post hpost _
  have hin : ∀ j', j' < t.length →
      digitAt (pre ++ t ++ post) (pre.length + j') = digitAt t j' := by
    intro j' hj'
    rw [List.append_assoc, digitAt_append_right pre (t ++ post) _ (by omega)]
    have : pre.length + j' - pre.length = j' := by omega
    rw [this]
    exact digitAt_append_left t post j' hj'
  have hlo : pre.length ≤ i := by
    by_contra hc
    push_neg at hc
    have hd : digitAt (pre ++ t ++ post) i = true :=
      (hrun i).mpr ⟨by omega, by omega⟩
    rw [hout i (Or.inl hc)] at hd
    exact Bool.noConfusion hd
  have hhi : i + n ≤ pre.length + t.length := by
    by_contra hc
    push_neg at hc
    have hd : digitAt (pre ++ t ++ post) (i + n - 1) = true :=
      (hrun (i + n - 1)).mpr ⟨by omega, by omega⟩
    rw [hout (i + n - 1) (Or.inr (by omega))] at hd
    exact Bool.noConfusion hd
  intro j'
  by_cases hj' : j' < t.length
  · rw [← hin j' hj']
    rw [hrun (pre.length + j')]
    omega
  · rw [digitAt_eq_false_of_le t j' (by omega)]
    constructor
    · intro hb
      exact absurd hb (by simp)
    · intro hb
      exfalso
      omega

/-- The substring test is occurrence of a contiguous infix. -/
theorem containsSub_iff_occurs (needle hay : List Char) :
    containsSub needle hay = true ↔ needle <:+: hay := by
  unfold containsSub
  rw [List.any_eq_true]
  constructor
  · rintro ⟨i, hi, hEq⟩
    have h : (hay.drop i).take needle.length = needle := of_decide_eq_true hEq
    refine ⟨hay.take i, (hay.drop i).drop needle.length, ?_⟩
    have h2 : hay.take i ++ ((hay.drop i).take needle.length ++
        (hay.drop i).drop needle.length) = hay := by
      rw [List.take_append_drop, List.take_append_drop]
    rw [h] at h2
    rw [List.append_assoc]
    exact h2
  · rintro ⟨u, v, huv⟩
    refine ⟨u.length, ?_, ?_⟩
    · rw [List.mem_range]
      have : u.length ≤ hay.length := by
        rw [← huv]
        simp [List.length_append]
      omega
    · apply decide_eq_true
      rw [← huv, List.append_assoc, List.drop_left, List.take_left]

/-- Keyword absence restricts to the stripped core. -/
theorem noKw_transfer (pre t post : List Char)
    (h : noKw (pre ++ t ++ post)) : noKw t := by
  have mono : ∀ kw : List Char,
      containsSub kw ((pre ++ t ++ post).map Char.toLower) = false →
      containsSub kw (t.map Char.toLower) = false := by
    intro kw hfull
    cases hc : containsSub kw (t.map Char.toLower) with
    | false => rfl
    | true =>
      exfalso
      have hinf : kw <:+: t.map Char.toLower :=
        (containsSub_iff_occurs kw (t.map Char.toLower)).mp hc
      obtain ⟨u, v, huv⟩ := hinf
      have hbig : kw <:+: (pre ++ t ++ post).map Char.toLower := by
        rw [List.map_append, List.map_append]
        refine ⟨pre.map Char.toLower ++ u, v ++ post.map Char.toLower, ?_⟩
        rw [← huv]
        simp [List.append_assoc]
      rw [(containsSub_iff_occurs kw ((pre ++ t ++ post).map Char.toLower)).mpr hbig]
        at hfull
      exact Bool.noConfusion hfull
  exact ⟨mono _ h.1, mono _ h.2.1, mono _ h.2.2.1, mono _ h.2.2.2⟩

/-- Claim C9: a message body whose only digits form a single bare run of 7 or
more digits and which contains none of the label keywords yields no OTP, and
the extractor drops the whole table row built on such a body, producing no
record for it. -/
theorem C9_theorem :
    ∀ (s : List Char) (i n : Nat), 7 ≤ n → onlyRun s i n → noKw s →
      extract_otp_from_text (String.mk s) = none ∧
      (∀ now_str hdr phone svc,
        extract_messages now_str [hdr, [phone, svc, String.mk s]] = []) := by
  intro s i n h7 hrun hkw
  have hstrip : extract_otp_from_text (String.mk (pyStrip s)) = none := by
    obtain ⟨pre, post, hdecomp, hpre, hpost⟩ := pyStrip_decomp s
    have hrun' : onlyRun (pre ++ pyStrip s ++ post) i n := by
      rw [← hdecomp]
      exact hrun
    have hkw' : noKw (pre ++ pyStrip s ++ post) := by
      rw [← hdecomp]
      exact hkw
    exact extract_eq_none_of_onlyRun (pyStrip s) (i - pre.length) n h7
      (onlyRun_transfer pre (pyStrip s) post i n (by omega) hpre hpost hrun')
      (noKw_transfer pre (pyStrip s) post hkw')
  constructor
  · exact extract_eq_none_of_onlyRun s i n h7 hrun hkw
  · intro now_str hdr phone svc
    have hrec : mkOtpRecord now_str [phone, svc, String.mk s] = none := by
      unfold mkOtpRecord
      rw [if_neg (by simp)]
      dsimp only
      simp only [List.getD_cons_succ, List.getD_cons_zero]
      have hps : pyStripStr (String.mk s) = String.mk (pyStrip s) := rfl
      rw [hps, hstrip]
    unfold extract_messages
    simp only [List.drop_succ_cons, List.drop_zero]
    rw [List.filterMap_cons, hrec]
    rfl

/-- A decidable bounded check implies the single-run property. -/
theorem onlyRun_of_bounded (s : List Char) (i n : Nat)
    (hlen : i + n ≤ s.length)
    (hall : (List.range s.length).all
      (fun j => digitAt s j == (decide (i ≤ j) && decide (j < i + n))) = true) :
    onlyRun s i n := by
  intro j
  by_cases hj : j < s.length
  · have h := List.all_eq_true.mp hall j (List.mem_range.mpr hj)
    have h' : digitAt s j = (decide (i ≤ j) && decide (j < i + n)) := by
      simpa using h
    rw [h']
    constructor
    · intro hb
      rw [Bool.and_eq_true] at hb
      exact ⟨of_decide_eq_true hb.1, of_decide_eq_true hb.2⟩
    · intro hb
      rw [Bool.and_eq_true]
      exact ⟨decide_eq_true hb.1, decide_eq_true hb.2⟩
  · rw [digitAt_eq_false_of_le s j (by omega)]
    constructor
    · intro hb
      exact absurd hb (by simp)
    · intro hb
      exfalso
      omega

/-- Witness for C9: a body whose only digits are one 8-digit run with no label
keyword yields no OTP. -/
theorem C9_witness :
    extract_otp_from_text (String.mk "hello 12345678 world".data) = none := by
  have h := C9_theorem "hello 12345678 world".data 6 8 (by omega)
    (onlyRun_of_bounded "hello 12345678 world".data 6 8 (by decide) (by decide))
    ⟨by decide, by decide, by decide, by decide⟩
  exact h.1
